import Mathlib

/-!
Verification of the cchunker repository (two Go programs: cmd/multicchunker/main.go,
the multi-level Reduction Driver, and the single-level cchunker driver).

Byte streams are modelled as lists of naturals (byte values); the external
content-defined chunking engine is an abstract function from a stream to its
chunk sequence; the external chunk processor is an abstract function from one
chunk's bytes to the pair (its stdout bytes, whether it exited with status 0).
The drivers are embedded as the executable functions below, translated
statement-by-statement from the two main functions.
-/

namespace CChunker

/-- A byte stream (stdin, a chunk, a summary buffer, stdout) as a list of byte values. -/
abbrev ByteStream := List Nat

/-- One chunk of the stream, as produced by the chunker's Next. -/
abbrev Chunk := List Nat

/-- The external chunk-processing subprocess: given the chunk bytes fed to its stdin,
it yields the bytes it writes to its stdout and whether it exited with status zero
(cmd.Run returning nil). -/
def Processor := Chunk → ByteStream × Bool

/-- The external content-defined chunking engine: a stream's chunk sequence. -/
def ChunkSource := ByteStream → List Chunk

/-! ### Size profiles (constants from both main.go files, lines 92-121 / 73-102) -/

def kiB : Nat := 1024
def miB : Nat := 1024 * kiB

def SmallMinSize : Nat := 512 * kiB
def SmallMaxSize : Nat := 8 * miB
def SmallBits : Nat := 20

def StandardMinSize : Nat := 512 * kiB
def StandardMaxSize : Nat := 16 * miB
def StandardBits : Nat := 22

def LargeMinSize : Nat := 1024 * kiB
def LargeMaxSize : Nat := 32 * miB
def LargeBits : Nat := 23

/-- A size profile: the chunker boundary configuration
(NewWithBoundaries min max plus SetAverageBits). -/
structure SizeProfile where
  minSize : Nat
  maxSize : Nat
  averageSizeBits : Nat
deriving DecidableEq

def SmallProfile : SizeProfile := ⟨SmallMinSize, SmallMaxSize, SmallBits⟩
def StandardProfile : SizeProfile := ⟨StandardMinSize, StandardMaxSize, StandardBits⟩
def LargeProfile : SizeProfile := ⟨LargeMinSize, LargeMaxSize, LargeBits⟩

/-- The profile selection chain, exactly as written in both main functions
(main.go lines 126-138, part_000 lines 106-118):
if smallChunks then small else if largeChunks then large else standard. -/
def selectProfile (smallChunks largeChunks : Bool) : SizeProfile :=
  if smallChunks then SmallProfile
  else if largeChunks then LargeProfile
  else StandardProfile

/-- The spec's invariant on a size profile: minSize < maxSize and the expected
chunk size 2 ^ averageSizeBits lies between the bounds inclusive. -/
def profileInvariant (p : SizeProfile) : Prop :=
  p.minSize < p.maxSize ∧ p.minSize ≤ 2 ^ p.averageSizeBits ∧ 2 ^ p.averageSizeBits ≤ p.maxSize

instance (p : SizeProfile) : Decidable (profileInvariant p) := by
  unfold profileInvariant; infer_instance

/-! ### Decimal rendering of the iteration counter (Fprintf of the iteration, main.go line 84) -/

/-- ASCII decimal digits of n (fueled helper; fuel n + 1 always suffices). -/
def decDigitsAux : Nat → Nat → List Nat
  | 0, _ => []
  | fuel + 1, n => if n < 10 then [48 + n] else decDigitsAux fuel (n / 10) ++ [48 + n % 10]

/-- ASCII decimal representation of n, as produced by the percent-d format verb. -/
def decRepr (n : Nat) : List Nat := decDigitsAux (n + 1) n

/-- The line written at the start of every level: the iteration number then a newline. -/
def iterLine (n : Nat) : List Nat := decRepr n ++ [10]

/-! ### The Reduction Driver (cmd/multicchunker/main.go) -/

/-- The mutable state of one level of the reduction loop: the summaryData buffer,
the reusable single-line capture buffer summaryLine, and the chunk counter nChunks. -/
structure LevelState where
  summaryData : List Nat
  summaryLine : List Nat
  nChunks : Nat
deriving DecidableEq

/-- One iteration of the inner chunk loop body (main.go lines 152-175):
summaryLine.Reset(), the subprocess runs with its stdout wired to summaryLine and
its stdin fed the chunk; on success the captured line is appended to summaryData
and nChunks incremented; on a non-zero exit the program aborts (error carries the
state at the moment of the abort, summaryData not yet extended). -/
def runChunk (proc : Processor) (st : LevelState) (c : Chunk) : Except LevelState LevelState :=
  let line := ([] : List Nat) ++ (proc c).1
  if (proc c).2 then
    .ok ⟨st.summaryData ++ line, line, st.nChunks + 1⟩
  else
    .error ⟨st.summaryData, line, st.nChunks⟩

/-- The inner chunk loop (main.go lines 142-176) over the level's chunk sequence. -/
def chunkLoop (proc : Processor) : List Chunk → LevelState → Except LevelState LevelState
  | [], st => .ok st
  | c :: cs, st =>
    match runChunk proc st c with
    | .error st₁ => .error st₁
    | .ok st₁ => chunkLoop proc cs st₁

/-- The chunks actually handed to the processor by one pass of the dispatch loop:
every chunk up to and including the first one whose subprocess fails; nothing after. -/
def levelDispatched (proc : Processor) : List Chunk → List Chunk
  | [] => []
  | c :: cs => if (proc c).2 then c :: levelDispatched proc cs else [c]

/-- The concatenation, in chunk order, of the stdout bytes captured for each chunk. -/
def capturedLines (proc : Processor) : List Chunk → List Nat
  | [] => []
  | c :: cs => (proc c).1 ++ capturedLines proc cs

/-- Outcome of the reduction driver's outer loop (main.go lines 83-185):
done s means the loop broke with nChunks at 0 or 1 and s is the summaryData about
to be written to stdout; failed s means os.Exit(1) fired mid-level with s the
summaryData accumulated so far; outOfFuel only marks model fuel exhaustion. -/
inductive ReduceResult
  | done (finalSummary : List Nat)
  | failed (summaryAtFailure : List Nat)
  | outOfFuel
deriving DecidableEq

/-- The outer reduction loop (main.go lines 83-185). Each level writes the
iteration line into a fresh summaryData buffer, runs the chunk loop over the
chunks of the current input, then either breaks (nChunks 0 or 1) or recurses with
input := summaryData, iteration + 1, and a fresh buffer. The summaryLine buffer
is declared outside the loop and threads through. Fuel bounds the number of
levels the model may unfold. -/
def reduceLoop (chunksOf : ChunkSource) (proc : Processor) :
    Nat → ByteStream → Nat → List Nat → ReduceResult
  | 0, _, _, _ => .outOfFuel
  | fuel + 1, input, iteration, line =>
    match chunkLoop proc (chunksOf input) ⟨iterLine iteration, line, 0⟩ with
    | .error st => .failed st.summaryData
    | .ok st =>
      if st.nChunks = 0 ∨ st.nChunks = 1 then .done st.summaryData
      else reduceLoop chunksOf proc fuel st.summaryData (iteration + 1) st.summaryLine

/-- All chunks dispatched to the processor over the whole reduction run, in order,
across levels. -/
def reduceDispatched (chunksOf : ChunkSource) (proc : Processor) :
    Nat → ByteStream → Nat → List Nat → List Chunk
  | 0, _, _, _ => []
  | fuel + 1, input, iteration, line =>
    levelDispatched proc (chunksOf input) ++
      match chunkLoop proc (chunksOf input) ⟨iterLine iteration, line, 0⟩ with
      | .error _ => []
      | .ok st =>
        if st.nChunks = 0 ∨ st.nChunks = 1 then []
        else reduceDispatched chunksOf proc fuel st.summaryData (iteration + 1) st.summaryLine

/-- The observable outcome of the reduction program from a given loop state:
the bytes written to stdout and the process exit code. On success the final
summaryData is written (main.go line 187) and the process exits 0; on any
subprocess failure the program exits 1 having written nothing to stdout. -/
def reduceRun (chunksOf : ChunkSource) (proc : Processor)
    (fuel : Nat) (input : ByteStream) (iteration : Nat) (line : List Nat) :
    Option (List Nat × Nat) :=
  match reduceLoop chunksOf proc fuel input iteration line with
  | .done s => some (s, 0)
  | .failed _ => some ([], 1)
  | .outOfFuel => none

/-! ### The Single-Level Driver (src/unnamed/part_000) -/

/-- The single-level dispatch loop (part_000 lines 120-146): each subprocess's
stdout goes straight to the program's stdout; a non-zero exit aborts the loop.
Returns the accumulated stdout bytes and whether every dispatch succeeded. -/
def singleLevel (proc : Processor) : List Chunk → List Nat → List Nat × Bool
  | [], out => (out, true)
  | c :: cs, out =>
    if (proc c).2 then singleLevel proc cs (out ++ (proc c).1)
    else (out ++ (proc c).1, false)

/-! ### The CLI entry points of both programs -/

/-- The boolean flags and the polynomial flag of both programs. -/
structure Flags where
  newPolynomial : Bool
  checkPolynomial : Bool
  smallChunks : Bool
  largeChunks : Bool
  polynomial : Nat
deriving DecidableEq

/-- What an invocation observably does: the bytes written to stdout, the process
exit code, the chunks dispatched to the external processor, and whether the
usage text was printed (the stderr side of the usage path). -/
structure ProgResult where
  stdoutBytes : List Nat
  exitCode : Nat
  dispatched : List Chunk
  usagePrinted : Bool
deriving DecidableEq

/-- The main function of cmd/multicchunker/main.go (lines 29-192). randPoly
models chunker.RandomPolynomial; irreducible models Pol.Irreducible; chunkerOf
models the chunking engine as instantiated with the selected size profile;
cmdArgs are the positional arguments after flag parsing; input is stdin. -/
def multiMain (flags : Flags) (randPoly : Except Unit Nat) (irreducible : Nat → Bool)
    (cmdArgs : List (List Nat)) (chunkerOf : SizeProfile → ChunkSource) (proc : Processor)
    (fuel : Nat) (input : ByteStream) : Option ProgResult :=
  if flags.newPolynomial then
    match randPoly with
    | .error _ => some ⟨[], 1, [], false⟩
    | .ok p => some ⟨decRepr p ++ [10], 0, [], false⟩
  else if flags.checkPolynomial then
    if irreducible flags.polynomial then some ⟨[], 0, [], false⟩
    else some ⟨[], 1, [], false⟩
  else if cmdArgs.isEmpty then
    some ⟨[], 1, [], true⟩
  else
    let chunksOf := chunkerOf (selectProfile flags.smallChunks flags.largeChunks)
    match reduceLoop chunksOf proc fuel input 0 [] with
    | .done s => some ⟨s, 0, reduceDispatched chunksOf proc fuel input 0 [], false⟩
    | .failed _ => some ⟨[], 1, reduceDispatched chunksOf proc fuel input 0 [], false⟩
    | .outOfFuel => none

/-- The main function of the single-level cchunker (part_000 lines 29-148). -/
def singleMain (flags : Flags) (randPoly : Except Unit Nat) (irreducible : Nat → Bool)
    (cmdArgs : List (List Nat)) (chunkerOf : SizeProfile → ChunkSource) (proc : Processor)
    (input : ByteStream) : ProgResult :=
  if flags.newPolynomial then
    match randPoly with
    | .error _ => ⟨[], 1, [], false⟩
    | .ok p => ⟨decRepr p ++ [10], 0, [], false⟩
  else if flags.checkPolynomial then
    if irreducible flags.polynomial then ⟨[], 0, [], false⟩
    else ⟨[], 1, [], false⟩
  else if cmdArgs.isEmpty then
    ⟨[], 1, [], true⟩
  else
    let cs := chunkerOf (selectProfile flags.smallChunks flags.largeChunks) input
    let r := singleLevel proc cs []
    ⟨r.1, if r.2 then 0 else 1, levelDispatched proc cs, false⟩

end CChunker

namespace CChunker

/-! ### Claims -/

/-! ### Helper lemmas -/

lemma decDigitsAux_mem_ge (fuel : Nat) :
    ∀ (n : Nat), ∀ x ∈ decDigitsAux fuel n, 48 ≤ x := by
  induction fuel with
  | zero => intro n x hx; simp [decDigitsAux] at hx
  | succ fuel ih =>
    intro n x hx
    by_cases h : n < 10
    · simp [decDigitsAux, h] at hx
      omega
    · simp [decDigitsAux, h] at hx
      rcases hx with hx | hx
      · exact ih _ x hx
      · omega

lemma count_decRepr (n : Nat) : (decRepr n).count 10 = 0 := by
  rw [List.count_eq_zero]
  intro hmem
  have h := decDigitsAux_mem_ge (n + 1) n 10 hmem
  omega

lemma count_iterLine (n : Nat) : (iterLine n).count 10 = 1 := by
  unfold iterLine
  rw [List.count_append, count_decRepr]
  simp

lemma count_capturedLines (proc : Processor) (cs : List Chunk)
    (h : ∀ c ∈ cs, ((proc c).1).count 10 = 1) :
    (capturedLines proc cs).count 10 = cs.length := by
  induction cs with
  | nil => simp [capturedLines]
  | cons c cs ih =>
    have hd := h c (by simp)
    have ht := ih (fun x hx => h x (by simp [hx]))
    simp [capturedLines, List.count_append, hd, ht]
    omega

lemma chunkLoop_ok (proc : Processor) :
    ∀ (cs : List Chunk) (st : LevelState), (∀ c ∈ cs, (proc c).2 = true) →
      ∃ l, chunkLoop proc cs st =
        .ok ⟨st.summaryData ++ capturedLines proc cs, l, st.nChunks + cs.length⟩ := by
  intro cs
  induction cs with
  | nil =>
    intro st _
    exact ⟨st.summaryLine, by simp [chunkLoop, capturedLines]⟩
  | cons c cs ih =>
    intro st h
    have hc : (proc c).2 = true := h c (by simp)
    obtain ⟨l, hl⟩ :=
      ih ⟨st.summaryData ++ (proc c).1, (proc c).1, st.nChunks + 1⟩
        (fun x hx => h x (by simp [hx]))
    refine ⟨l, ?_⟩
    simp only [chunkLoop, runChunk, hc, if_true, List.nil_append]
    rw [hl]
    simp [capturedLines, List.append_assoc]
    omega

lemma chunkLoop_error (proc : Processor) :
    ∀ (cs1 : List Chunk) (c : Chunk) (cs2 : List Chunk) (st : LevelState),
      (∀ x ∈ cs1, (proc x).2 = true) → (proc c).2 = false →
      chunkLoop proc (cs1 ++ c :: cs2) st =
        .error ⟨st.summaryData ++ capturedLines proc cs1, (proc c).1,
          st.nChunks + cs1.length⟩ := by
  intro cs1
  induction cs1 with
  | nil =>
    intro c cs2 st _ hc
    simp [chunkLoop, runChunk, hc, capturedLines]
  | cons x cs1 ih =>
    intro c cs2 st h hc
    have hx : (proc x).2 = true := h x (by simp)
    have h' := ih c cs2 ⟨st.summaryData ++ (proc x).1, (proc x).1, st.nChunks + 1⟩
      (fun y hy => h y (by simp [hy])) hc
    dsimp only at h'
    simp only [List.cons_append, chunkLoop, runChunk, hx, if_true, List.nil_append,
      List.append_eq]
    rw [h']
    simp [capturedLines, List.append_assoc]
    omega

lemma levelDispatched_ok (proc : Processor) (cs : List Chunk)
    (h : ∀ c ∈ cs, (proc c).2 = true) :
    levelDispatched proc cs = cs := by
  induction cs with
  | nil => simp [levelDispatched]
  | cons c cs ih =>
    have hc : (proc c).2 = true := h c (by simp)
    simp [levelDispatched, hc, ih (fun x hx => h x (by simp [hx]))]

lemma levelDispatched_fail (proc : Processor) :
    ∀ (cs1 : List Chunk) (c : Chunk) (cs2 : List Chunk),
      (∀ x ∈ cs1, (proc x).2 = true) → (proc c).2 = false →
      levelDispatched proc (cs1 ++ c :: cs2) = cs1 ++ [c] := by
  intro cs1
  induction cs1 with
  | nil =>
    intro c cs2 _ hc
    simp [levelDispatched, hc]
  | cons x cs1 ih =>
    intro c cs2 h hc
    have hx : (proc x).2 = true := h x (by simp)
    simp [levelDispatched, hx, ih c cs2 (fun y hy => h y (by simp [hy])) hc]

lemma singleLevel_ok (proc : Processor) :
    ∀ (cs : List Chunk) (out : List Nat), (∀ c ∈ cs, (proc c).2 = true) →
      singleLevel proc cs out = (out ++ capturedLines proc cs, true) := by
  intro cs
  induction cs with
  | nil => intro out _; simp [singleLevel, capturedLines]
  | cons c cs ih =>
    intro out h
    have hc : (proc c).2 = true := h c (by simp)
    simp [singleLevel, hc, ih (out ++ (proc c).1) (fun x hx => h x (by simp [hx])),
      capturedLines, List.append_assoc]

/-! ### Claims -/

/-- C8: each of the three size profiles satisfies the SizeProfile invariant:
minSize < maxSize and the expected chunk size 2 ^ averageSizeBits lies between
minSize and maxSize inclusive. -/
theorem claim8_profile_invariants :
    profileInvariant SmallProfile ∧ profileInvariant StandardProfile ∧
      profileInvariant LargeProfile := by
  refine ⟨?_, ?_, ?_⟩ <;> unfold profileInvariant <;> decide

/-- C3 counterexample: with both profile flags set, the profile applied is NOT
the large one (the small branch is checked first and wins). -/
theorem claim3_large_wins_counterexample :
    ¬ (selectProfile true true = LargeProfile) := by
  decide

/-- C3 (amended): when both the small-chunks and large-chunks flags are set, the
SMALL profile is the one applied to the chunk source, because small is checked
before large in the if / else-if sequence. -/
theorem claim3_small_wins :
    selectProfile true true = SmallProfile := by
  decide

/-- C1: after a level's chunk loop exhausts with state st, the reduction driver
terminates and writes the current summary to stdout when the chunk counter is 0
or 1, and otherwise recurses with the summary as the next input, the iteration
incremented by exactly 1, and a fresh summary buffer (the recursive call starts
its level from the state with summaryData equal to iterLine of the new
iteration, as reduceLoop's definition shows). -/
theorem claim1_level_end (chunksOf : ChunkSource) (proc : Processor)
    (fuel : Nat) (input : ByteStream) (iteration : Nat) (line : List Nat) (st : LevelState)
    (h : chunkLoop proc (chunksOf input) ⟨iterLine iteration, line, 0⟩ = .ok st) :
    ((st.nChunks = 0 ∨ st.nChunks = 1) →
        reduceLoop chunksOf proc (fuel + 1) input iteration line = .done st.summaryData ∧
        reduceRun chunksOf proc (fuel + 1) input iteration line =
          some (st.summaryData, 0)) ∧
    (2 ≤ st.nChunks →
        reduceLoop chunksOf proc (fuel + 1) input iteration line =
          reduceLoop chunksOf proc fuel st.summaryData (iteration + 1) st.summaryLine) := by
  constructor
  · intro h01
    have hdone : reduceLoop chunksOf proc (fuel + 1) input iteration line =
        .done st.summaryData := by
      simp only [reduceLoop, h]
      rw [if_pos h01]
    exact ⟨hdone, by simp [reduceRun, hdone]⟩
  · intro h2
    have hno : ¬ (st.nChunks = 0 ∨ st.nChunks = 1) := by omega
    simp only [reduceLoop, h]
    rw [if_neg hno]

/-- C1 witness: a concrete two-chunk level recurses with iteration 1 and the
summary as input. -/
theorem claim1_level_end_witness :
    chunkLoop (fun c => (c ++ [10], true)) [[1], [2]]
        ⟨iterLine 0, [], 0⟩ =
      .ok ⟨[48, 10, 1, 10, 2, 10], [2, 10], 2⟩ ∧
    2 ≤ (⟨[48, 10, 1, 10, 2, 10], [2, 10], 2⟩ : LevelState).nChunks ∧
    reduceLoop (fun _ => [[1], [2]]) (fun c => (c ++ [10], true)) 2 [] 0 [] =
      reduceLoop (fun _ => [[1], [2]]) (fun c => (c ++ [10], true)) 1
        [48, 10, 1, 10, 2, 10] 1 [2, 10] :=
  ⟨by rfl, by decide,
    (claim1_level_end (fun _ => [[1], [2]]) (fun c => (c ++ [10], true)) 1 [] 0 []
        ⟨[48, 10, 1, 10, 2, 10], [2, 10], 2⟩ (by rfl)).2 (by decide)⟩

/-- C2: when every dispatch of a level succeeds, the level's chunk loop returns
a summary that is exactly the iteration line followed by the captured per-chunk
outputs in chunk order, the chunk counter equals the number of chunks, and if
every captured output holds exactly one line terminator then the summary holds
exactly 1 + chunkCount line terminators (no lines dropped, reordered or merged:
the summary is literally the ordered concatenation). -/
theorem claim2_summary_structure (proc : Processor) (cs : List Chunk)
    (iteration : Nat) (line : List Nat)
    (h : ∀ c ∈ cs, (proc c).2 = true) :
    ∃ st, chunkLoop proc cs ⟨iterLine iteration, line, 0⟩ = .ok st ∧
      st.summaryData = iterLine iteration ++ capturedLines proc cs ∧
      st.nChunks = cs.length ∧
      ((∀ c ∈ cs, ((proc c).1).count 10 = 1) →
        (st.summaryData).count 10 = 1 + cs.length) := by
  obtain ⟨l, hl⟩ := chunkLoop_ok proc cs ⟨iterLine iteration, line, 0⟩ h
  refine ⟨⟨iterLine iteration ++ capturedLines proc cs, l, 0 + cs.length⟩, hl, rfl, by simp, ?_⟩
  intro hlines
  dsimp only
  rw [List.count_append, count_iterLine, count_capturedLines proc cs hlines]

/-- C2 witness: a concrete two-chunk level whose processor emits one terminated
line per chunk. -/
theorem claim2_summary_structure_witness :
    (∀ c ∈ [[1], [2]], ((fun (c : Chunk) => (c ++ [10], true)) c).2 = true) ∧
    (∃ st, chunkLoop (fun (c : Chunk) => (c ++ [10], true)) [[1], [2]]
          ⟨iterLine 0, [], 0⟩ = .ok st ∧
      st.summaryData =
        iterLine 0 ++ capturedLines (fun (c : Chunk) => (c ++ [10], true)) [[1], [2]] ∧
      st.nChunks = ([[1], [2]] : List Chunk).length ∧
      ((∀ c ∈ [[1], [2]],
          (((fun (c : Chunk) => (c ++ [10], true)) c).1).count 10 = 1) →
        (st.summaryData).count 10 = 1 + ([[1], [2]] : List Chunk).length)) :=
  ⟨by decide, claim2_summary_structure (fun c => (c ++ [10], true)) [[1], [2]] 0 []
    (by decide)⟩

/-- C9: the single-line capture buffer is reset before every dispatch, so the
result of one dispatch is independent of whatever the capture buffer held
before (first conjunct), and on success the bytes appended to the summary for
this chunk are exactly the subprocess's stdout bytes for this chunk (second
conjunct): no residue accumulates across dispatches within or across levels. -/
theorem claim9_capture_reset (proc : Processor) (d l l' : List Nat) (n : Nat) (c : Chunk) :
    runChunk proc ⟨d, l, n⟩ c = runChunk proc ⟨d, l', n⟩ c ∧
    ((proc c).2 = true →
      runChunk proc ⟨d, l, n⟩ c = .ok ⟨d ++ (proc c).1, (proc c).1, n + 1⟩) := by
  refine ⟨rfl, ?_⟩
  intro hc
  simp [runChunk, hc]

/-- C9 witness: a concrete dispatch appends exactly the subprocess stdout, for
two different prior capture-buffer contents. -/
theorem claim9_capture_reset_witness :
    ((fun (c : Chunk) => (c ++ [10], true)) [3]).2 = true ∧
    runChunk (fun (c : Chunk) => (c ++ [10], true)) ⟨[48, 10], [9, 9, 9], 0⟩ [3] =
      .ok ⟨[48, 10] ++ [3, 10], [3, 10], 1⟩ :=
  ⟨rfl, (claim9_capture_reset (fun c => (c ++ [10], true)) [48, 10] [9, 9, 9] [] 0 [3]).2 rfl⟩

/-- C5: over the chunk sequence of a stream, the single-level driver dispatches
each chunk exactly once and in order (the dispatch trace is the chunk list
itself when every dispatch succeeds), forwarding each subprocess's stdout to
the system's output in that order; and if some dispatch fails, no chunk after
the failing one is ever dispatched. -/
theorem claim5_single_level (proc : Processor) (cs : List Chunk) :
    ((∀ c ∈ cs, (proc c).2 = true) →
        levelDispatched proc cs = cs ∧
        singleLevel proc cs [] = (capturedLines proc cs, true)) ∧
    (∀ cs1 c cs2, cs = cs1 ++ c :: cs2 →
        (∀ x ∈ cs1, (proc x).2 = true) → (proc c).2 = false →
        levelDispatched proc cs = cs1 ++ [c]) := by
  constructor
  · intro h
    refine ⟨levelDispatched_ok proc cs h, ?_⟩
    simpa using singleLevel_ok proc cs [] h
  · intro cs1 c cs2 hs h1 hc
    subst hs
    exact levelDispatched_fail proc cs1 c cs2 h1 hc

/-- C5 witness: a concrete run in which the second of three chunks fails stops
dispatching at the failing chunk. -/
theorem claim5_single_level_witness :
    (∀ x ∈ [[1]], ((fun (c : Chunk) => (c, c.length == 1)) x).2 = true) ∧
    ((fun (c : Chunk) => (c, c.length == 1)) [2, 2]).2 = false ∧
    levelDispatched (fun (c : Chunk) => (c, c.length == 1)) ([[1]] ++ [2, 2] :: [[3]]) =
      [[1]] ++ [[2, 2]] :=
  ⟨by decide, by decide,
    (claim5_single_level (fun c => (c, c.length == 1)) ([[1]] ++ [2, 2] :: [[3]])).2
      [[1]] [2, 2] [[3]] rfl (by decide) (by decide)⟩

/-- C6: when the processor exits non-zero on some chunk of a level (all earlier
chunks of the level having succeeded), the reduction run aborts there: the loop
result is failed with a summary holding exactly the iteration line plus the
captured lines of the chunks dispatched before the failure, the program writes
nothing to stdout and exits 1, and the dispatch trace ends at the failing chunk
with no further dispatch at this or any deeper level. -/
theorem claim6_failure_aborts (chunksOf : ChunkSource) (proc : Processor)
    (fuel : Nat) (input : ByteStream) (iteration : Nat) (line : List Nat)
    (cs1 : List Chunk) (c : Chunk) (cs2 : List Chunk)
    (hsplit : chunksOf input = cs1 ++ c :: cs2)
    (h1 : ∀ x ∈ cs1, (proc x).2 = true)
    (hc : (proc c).2 = false) :
    reduceLoop chunksOf proc (fuel + 1) input iteration line =
        .failed (iterLine iteration ++ capturedLines proc cs1) ∧
    reduceRun chunksOf proc (fuel + 1) input iteration line = some ([], 1) ∧
    reduceDispatched chunksOf proc (fuel + 1) input iteration line = cs1 ++ [c] := by
  have herr := chunkLoop_error proc cs1 c cs2 ⟨iterLine iteration, line, 0⟩ h1 hc
  dsimp only at herr
  have hfail : reduceLoop chunksOf proc (fuel + 1) input iteration line =
      .failed (iterLine iteration ++ capturedLines proc cs1) := by
    simp only [reduceLoop, hsplit, herr]
  refine ⟨hfail, by simp [reduceRun, hfail], ?_⟩
  simp only [reduceDispatched, hsplit, herr]
  rw [levelDispatched_fail proc cs1 c cs2 h1 hc]
  simp

/-- C6 witness: a concrete level whose second chunk fails aborts the run with no
stdout, exit code 1, and a dispatch trace ending at the failing chunk. -/
theorem claim6_failure_aborts_witness :
    (fun (_ : ByteStream) => [[1], [2, 2], [3]]) [] = [[1]] ++ [2, 2] :: [[3]] ∧
    (∀ x ∈ [[1]], ((fun (c : Chunk) => (c ++ [10], c.length == 1)) x).2 = true) ∧
    ((fun (c : Chunk) => (c ++ [10], c.length == 1)) [2, 2]).2 = false ∧
    reduceRun (fun (_ : ByteStream) => [[1], [2, 2], [3]])
        (fun (c : Chunk) => (c ++ [10], c.length == 1)) 1 [] 0 [] = some ([], 1) ∧
    reduceDispatched (fun (_ : ByteStream) => [[1], [2, 2], [3]])
        (fun (c : Chunk) => (c ++ [10], c.length == 1)) 1 [] 0 [] = [[1]] ++ [[2, 2]] :=
  ⟨rfl, by decide, by decide,
   (claim6_failure_aborts (fun _ => [[1], [2, 2], [3]])
      (fun c => (c ++ [10], c.length == 1)) 0 [] 0 [] [[1]] [2, 2] [[3]]
      rfl (by decide) (by decide)).2.1,
   (claim6_failure_aborts (fun _ => [[1], [2, 2], [3]])
      (fun c => (c ++ [10], c.length == 1)) 0 [] 0 [] [[1]] [2, 2] [[3]]
      rfl (by decide) (by decide)).2.2⟩

/-- C4: the iteration-0 marker line is the two bytes 48 10 (the text 0 then a
newline); on an input whose chunk sequence is empty the whole run's output is
exactly that line with nothing dispatched, and on an input producing exactly
one chunk the whole run's output is that line followed by the single captured
processor line; both hold already at fuel 1, so no recursion occurs. -/
theorem claim4_trivial_input (chunksOf : ChunkSource) (proc : Processor)
    (input : ByteStream) :
    iterLine 0 = [48, 10] ∧
    (chunksOf input = [] →
        reduceRun chunksOf proc 1 input 0 [] = some (iterLine 0, 0) ∧
        reduceDispatched chunksOf proc 1 input 0 [] = []) ∧
    (∀ c out, chunksOf input = [c] → proc c = (out, true) →
        reduceRun chunksOf proc 1 input 0 [] = some (iterLine 0 ++ out, 0) ∧
        reduceDispatched chunksOf proc 1 input 0 [] = [c]) := by
  refine ⟨rfl, ?_, ?_⟩
  · intro h0
    constructor
    · simp [reduceRun, reduceLoop, h0, chunkLoop]
    · simp [reduceDispatched, h0, levelDispatched, chunkLoop]
  · intro c out hc hp
    have h1 : (proc c).2 = true := by rw [hp]
    have h2 : (proc c).1 = out := by rw [hp]
    constructor
    · simp [reduceRun, reduceLoop, hc, chunkLoop, runChunk, h1, h2]
    · simp [reduceDispatched, hc, levelDispatched, chunkLoop, runChunk, h1, h2]

/-- C4 witness: a concrete single-chunk input terminates at fuel 1 with output
0-newline then the one captured line. -/
theorem claim4_trivial_input_witness :
    (fun (_ : ByteStream) => [[7]]) [] = [[7]] ∧
    (fun (_ : Chunk) => (([9, 10] : List Nat), true)) [7] = (([9, 10] : List Nat), true) ∧
    reduceRun (fun (_ : ByteStream) => [[7]]) (fun (_ : Chunk) => (([9, 10] : List Nat), true))
        1 [] 0 [] = some (iterLine 0 ++ [9, 10], 0) ∧
    reduceDispatched (fun (_ : ByteStream) => [[7]])
        (fun (_ : Chunk) => (([9, 10] : List Nat), true)) 1 [] 0 [] = [[7]] :=
  ⟨rfl, rfl,
   ((claim4_trivial_input (fun _ => [[7]]) (fun _ => ([9, 10], true)) []).2.2
      [7] [9, 10] rfl rfl).1,
   ((claim4_trivial_input (fun _ => [[7]]) (fun _ => ([9, 10], true)) []).2.2
      [7] [9, 10] rfl rfl).2⟩

/-- C7: with no positional arguments after flag parsing (and neither one-shot
polynomial action requested, so the driver path is the one taken), both
programs print the usage text and abort with exit status 1, dispatch no chunk,
and write nothing to stdout. -/
theorem claim7_no_command (flags : Flags) (randPoly : Except Unit Nat)
    (irr : Nat → Bool) (chunkerOf : SizeProfile → ChunkSource) (proc : Processor)
    (fuel : Nat) (input : ByteStream)
    (hn : flags.newPolynomial = false) (hc : flags.checkPolynomial = false) :
    multiMain flags randPoly irr [] chunkerOf proc fuel input =
        some ⟨[], 1, [], true⟩ ∧
    singleMain flags randPoly irr [] chunkerOf proc input = ⟨[], 1, [], true⟩ := by
  constructor
  · simp [multiMain, hn, hc]
  · simp [singleMain, hn, hc]

/-- C7 witness: both programs at concrete argument-free invocations. -/
theorem claim7_no_command_witness :
    (⟨false, false, false, false, 0⟩ : Flags).newPolynomial = false ∧
    (⟨false, false, false, false, 0⟩ : Flags).checkPolynomial = false ∧
    multiMain ⟨false, false, false, false, 0⟩ (.ok 0) (fun _ => true)
        [] (fun _ _ => []) (fun _ => ([], true)) 0 [] = some ⟨[], 1, [], true⟩ ∧
    singleMain ⟨false, false, false, false, 0⟩ (.ok 0) (fun _ => true)
        [] (fun _ _ => []) (fun _ => ([], true)) [] = ⟨[], 1, [], true⟩ :=
  ⟨rfl, rfl,
   (claim7_no_command ⟨false, false, false, false, 0⟩ (.ok 0) (fun _ => true)
      (fun _ _ => []) (fun _ => ([], true)) 0 [] rfl rfl).1,
   (claim7_no_command ⟨false, false, false, false, 0⟩ (.ok 0) (fun _ => true)
      (fun _ _ => []) (fun _ => ([], true)) 0 [] rfl rfl).2⟩

/-- C10: when both the generate-new-polynomial flag and the check-polynomial
flag are set, the program performs only the generate action: it prints the
freshly generated polynomial followed by a newline on stdout and exits 0,
dispatching nothing, and the result is independent of the irreducibility
predicate (so the check never runs), because the generate branch is tested
first and returns. -/
theorem claim10_generate_precedence (flags : Flags) (p : Nat)
    (irr irr' : Nat → Bool) (cmdArgs : List (List Nat))
    (chunkerOf : SizeProfile → ChunkSource) (proc : Processor)
    (fuel : Nat) (input : ByteStream)
    (hn : flags.newPolynomial = true) (h₂ : flags.checkPolynomial = true) :
    multiMain flags (.ok p) irr cmdArgs chunkerOf proc fuel input =
        some ⟨decRepr p ++ [10], 0, [], false⟩ ∧
    multiMain flags (.ok p) irr cmdArgs chunkerOf proc fuel input =
        multiMain flags (.ok p) irr' cmdArgs chunkerOf proc fuel input ∧
    singleMain flags (.ok p) irr cmdArgs chunkerOf proc input =
        ⟨decRepr p ++ [10], 0, [], false⟩ := by
  refine ⟨?_, ?_, ?_⟩
  · simp [multiMain, hn]
  · simp [multiMain, hn]
  · simp [singleMain, hn]

/-- C10 witness: with both flags set and an irreducibility predicate that would
reject the polynomial, the program still prints the generated polynomial and
exits 0, and the result equals the one under the accepting predicate. -/
theorem claim10_generate_precedence_witness :
    (⟨true, true, false, false, 0⟩ : Flags).newPolynomial = true ∧
    (⟨true, true, false, false, 0⟩ : Flags).checkPolynomial = true ∧
    multiMain ⟨true, true, false, false, 0⟩ (.ok 5) (fun _ => false)
        [[99]] (fun _ _ => []) (fun _ => ([], true)) 0 [] =
      some ⟨decRepr 5 ++ [10], 0, [], false⟩ ∧
    multiMain ⟨true, true, false, false, 0⟩ (.ok 5) (fun _ => false)
        [[99]] (fun _ _ => []) (fun _ => ([], true)) 0 [] =
      multiMain ⟨true, true, false, false, 0⟩ (.ok 5) (fun _ => true)
        [[99]] (fun _ _ => []) (fun _ => ([], true)) 0 [] :=
  ⟨rfl, rfl,
   (claim10_generate_precedence ⟨true, true, false, false, 0⟩ 5 (fun _ => false)
      (fun _ => true) [[99]] (fun _ _ => []) (fun _ => ([], true)) 0 [] rfl rfl).1,
   (claim10_generate_precedence ⟨true, true, false, false, 0⟩ 5 (fun _ => false)
      (fun _ => true) [[99]] (fun _ _ => []) (fun _ => ([], true)) 0 [] rfl rfl).2.1⟩

end CChunker
